import Mathlib

/-
Verification development for the CogniAnchor backend core:
reminder tools, the emergency-alert tool, the agent loop, conversation
memory, and the speech-to-text selector.  Each definition is a shallow
embedding of the corresponding Python function; the data store and the
model provider are modelled at their interface boundary (a list-backed
table store and a turn-indexed stub provider).
-/

set_option maxRecDepth 4000

namespace CogniAnchor

/-- single-quote character; user-facing messages in the source contain it -/
def sq : String := String.singleton (Char.ofNat 39)

/-- naive datetime as produced by Python datetime.strptime: the five fields
the fixed reminder format determines.  Python compares datetimes
field-lexicographically; with fields in range (month < 13, day < 32,
hour < 24, minute < 60) that order coincides with the order of key below. -/
structure PyDateTime where
  year : Nat
  month : Nat
  day : Nat
  hour : Nat
  minute : Nat
deriving DecidableEq, Repr

/-- linearisation of a PyDateTime; on in-range fields it is order-isomorphic
to Python datetime comparison -/
def PyDateTime.key (d : PyDateTime) : Nat :=
  (((d.year * 13 + d.month) * 32 + d.day) * 24 + d.hour) * 60 + d.minute

/-- lower-cased copy of a string; character-list implementation of
Python str.lower restricted to ASCII, which is all the source compares -/
def lowerStr (s : String) : String :=
  ⟨s.data.map Char.toLower⟩

/-- split a character list at every character satisfying p; adjacent
separators yield empty pieces, like Python re splitting -/
def splitPL (p : Char → Bool) : List Char → List (List Char)
  | [] => [[]]
  | c :: cs =>
    let r := splitPL p cs
    if p c then [] :: r
    else
      match r with
      | [] => [[c]]
      | t :: ts => (c :: t) :: ts

/-- decimal value of a digit list -/
def digitsToNat (l : List Char) : Nat :=
  l.foldl (fun a c => a * 10 + (c.toNat - 48)) 0

/-- all characters are decimal digits and the string is non-empty -/
def isDigits (s : String) : Bool :=
  decide (s.length > 0) && s.data.all Char.isDigit

/-- day field of strptime %d: one or two digits, value 1..31 -/
def parseDay (s : String) : Option Nat :=
  if isDigits s && (s.length == 1 || s.length == 2) then
    let v := digitsToNat s.data
    if 1 ≤ v ∧ v ≤ 31 then some v else none
  else none

/-- month field of strptime %b: case-insensitive abbreviated month name -/
def monthNum (s : String) : Option Nat :=
  match lowerStr s with
  | "jan" => some 1
  | "feb" => some 2
  | "mar" => some 3
  | "apr" => some 4
  | "may" => some 5
  | "jun" => some 6
  | "jul" => some 7
  | "aug" => some 8
  | "sep" => some 9
  | "oct" => some 10
  | "nov" => some 11
  | "dec" => some 12
  | _ => none

/-- year field of strptime %Y: exactly four digits -/
def parseYear (s : String) : Option Nat :=
  if isDigits s && s.length == 4 then some (digitsToNat s.data) else none

/-- hour-colon-minute field of strptime %I:%M: hour 1..12 in one or two
digits, minute 0..59 in one or two digits -/
def parseHourMin (s : String) : Option (Nat × Nat) :=
  match (splitPL (fun c => c == ':') s.data).map (fun t => (⟨t⟩ : String)) with
  | [h, m] =>
    if isDigits h && (h.length == 1 || h.length == 2) &&
       isDigits m && (m.length == 1 || m.length == 2) then
      let hv := digitsToNat h.data
      let mv := digitsToNat m.data
      if 1 ≤ hv ∧ hv ≤ 12 ∧ mv ≤ 59 then some (hv, mv) else none
    else none
  | _ => none

/-- meridiem field of strptime %p: case-insensitive AM or PM; true means PM -/
def parseAmPm (s : String) : Option Bool :=
  match lowerStr s with
  | "am" => some false
  | "pm" => some true
  | _ => none

/-- Gregorian leap-year rule, as Python datetime uses -/
def isLeap (y : Nat) : Bool :=
  y % 4 == 0 && (y % 100 != 0 || y % 400 == 0)

/-- days in a month; datetime.strptime rejects day numbers above this -/
def daysInMonth (y m : Nat) : Nat :=
  if m = 2 then (if isLeap y then 29 else 28)
  else if m = 4 ∨ m = 6 ∨ m = 9 ∨ m = 11 then 30
  else 31

/-- whitespace-separated tokens of a string -/
def splitWs (s : String) : List String :=
  ((splitPL Char.isWhitespace s.data).filter (fun t => t ≠ [])).map
    (fun t => (⟨t⟩ : String))

/-- the string is non-empty and neither starts nor ends with whitespace;
strptime requires this because the format starts with a field, ends with a
field, and must match the whole input -/
def noEdgeWs (s : String) : Bool :=
  match s.toList, s.toList.getLast? with
  | c :: _, some d => !c.isWhitespace && !d.isWhitespace
  | _, _ => false

/-- shallow embedding of
datetime.strptime(date ++ " " ++ time, "%d %b %Y %I:%M %p"):
returns the parsed datetime, or none when strptime raises ValueError.
The 12-hour value is folded to a 24-hour value exactly as strptime does. -/
def parseDateTime (date time : String) : Option PyDateTime :=
  let s := date ++ " " ++ time
  if noEdgeWs s then
    match splitWs s with
    | [dTok, mTok, yTok, hmTok, apTok] =>
      match parseDay dTok, monthNum mTok, parseYear yTok,
            parseHourMin hmTok, parseAmPm apTok with
      | some dv, some mv, some yv, some hm, some pm =>
        if 1 ≤ yv ∧ dv ≤ daysInMonth yv mv then
          some ⟨yv, mv, dv, hm.1 % 12 + (if pm then 12 else 0), hm.2⟩
        else none
      | _, _, _, _, _ => none
    | _ => none
  else none

/-- a row of the reminders table -/
structure Reminder where
  id : Nat
  pair_id : String
  title : String
  date : String
  time : String
deriving DecidableEq, Repr

/-- the reminders table of the data store, with the id the store would
assign to the next inserted row -/
structure Store where
  reminders : List Reminder
  nextId : Nat
deriving DecidableEq, Repr

/-- substring search on character lists: the needle occurs in the hay -/
def containsL (needle : List Char) : List Char → Bool
  | [] => needle.isEmpty
  | c :: t => needle.isPrefixOf (c :: t) || containsL needle t

/-- Python substring containment: needle in hay -/
def strContains (hay needle : String) : Bool :=
  containsL needle.data hay.data

/-- Python str.startswith: pre is a prefix of s -/
def strStartsWith (s pre : String) : Bool :=
  pre.data.isPrefixOf s.data

/-- decimal digit characters of a positive number, most significant
first; the first argument is recursion fuel, at least the digit count -/
def natDigits : Nat → Nat → List Char
  | 0, _ => []
  | _ + 1, 0 => []
  | fuel + 1, n => natDigits fuel (n / 10) ++ [Char.ofNat (48 + n % 10)]

/-- decimal rendering of a Nat, as Python str formatting produces -/
def natToStr (n : Nat) : String :=
  if n = 0 then "0" else ⟨natDigits (n + 1) n⟩

/-- join string pieces with a separator, as Python str.join does -/
def joinSep (sep : String) : List String → String
  | [] => ""
  | [x] => x
  | x :: y :: t => x ++ sep ++ joinSep sep (y :: t)

/-- Python str.strip: remove leading and trailing whitespace -/
def strTrim (s : String) : String :=
  ⟨((s.data.dropWhile Char.isWhitespace).reverse.dropWhile
      Char.isWhitespace).reverse⟩

/-- error message of create_reminder on a strptime failure; the source
appends the ValueError detail text after this fixed prefix, which the
claims never inspect beyond the leading word Error -/
def createReminderErrMsg : String :=
  "Error: Invalid date/time format. Please use " ++ sq ++ "dd MMM yyyy" ++ sq ++
    " for date and " ++ sq ++ "hh:mm AM/PM" ++ sq ++ " for time."

/-- confirmation message of create_reminder -/
def createSuccessMsg (title date time : String) : String :=
  "Reminder created successfully! I" ++ sq ++ "ll remind you about " ++ sq ++
    title ++ sq ++ " on " ++ date ++ " at " ++ time ++ "."

/-- shallow embedding of agent_tools.create_reminder against a healthy
data store (insert appends a row and reports it back): validate the
date/time, and only on success insert one row and confirm -/
def create_reminder (st : Store) (pair_id title date time : String) :
    String × Store :=
  match parseDateTime date time with
  | none => (createReminderErrMsg, st)
  | some _ =>
    (createSuccessMsg title date time,
     ⟨st.reminders ++ [⟨st.nextId, pair_id, title, date, time⟩], st.nextId + 1⟩)

/-- strict lexicographic order on character lists by code point, the
order a text column sorts under byte-wise collation -/
def lexLt : List Char → List Char → Bool
  | [], [] => false
  | [], _ :: _ => true
  | _ :: _, [] => false
  | a :: as, b :: bs =>
    decide (a.toNat < b.toNat) || (a == b && lexLt as bs)

/-- strict lexicographic order on strings -/
def strLt (a b : String) : Bool :=
  lexLt a.data b.data

/-- lexicographic at-most on strings -/
def strLe (a b : String) : Bool :=
  !(strLt b a)

/-- ordering the data store applies for order(date asc).order(time asc) on
text columns: lexicographic on the date string, ties by the time string -/
def rowLe (a b : Reminder) : Bool :=
  strLt a.date b.date || (a.date == b.date && strLe a.time b.time)

/-- insertion into a row list sorted by rowLe -/
def insertRow (r : Reminder) : List Reminder → List Reminder
  | [] => [r]
  | x :: xs => if rowLe r x then r :: x :: xs else x :: insertRow r xs

/-- insertion sort by rowLe; models the order clause of the select -/
def orderRows : List Reminder → List Reminder
  | [] => []
  | x :: xs => insertRow x (orderRows xs)

/-- the row list that select(*).eq(pair_id).order(date).order(time) returns -/
def fetchRows (st : Store) (pair_id : String) : List Reminder :=
  orderRows (st.reminders.filter (fun r => r.pair_id == pair_id))

/-- filter of list_reminders: keep a row when its date/time parses and the
parsed datetime is at or after now; malformed rows are skipped -/
def isUpcoming (now : PyDateTime) (r : Reminder) : Bool :=
  match parseDateTime r.date r.time with
  | some dt => decide (now.key ≤ dt.key)
  | none => false

/-- the 1-indexed lines that list_reminders renders, one per row -/
def formatLines (i : Nat) : List Reminder → List String
  | [] => []
  | r :: rs =>
    (natToStr i ++ ". " ++ r.title ++ " - " ++ r.date ++ " at " ++ r.time) ::
      formatLines (i + 1) rs

/-- message of list_reminders when the pair has no rows at all -/
def noRemindersMsg : String :=
  "You don" ++ sq ++ "t have any reminders set right now."

/-- message of list_reminders when rows exist but none is upcoming -/
def allPassedMsg : String :=
  "All your reminders have passed. You don" ++ sq ++ "t have any upcoming reminders."

/-- body of agent_tools.list_reminders after the select returned rows -/
def listUpcomingMessage (now : PyDateTime) (rows : List Reminder) : String :=
  if rows = [] then noRemindersMsg
  else
    let upcoming := rows.filter (isUpcoming now)
    if upcoming = [] then allPassedMsg
    else
      "You have " ++ natToStr upcoming.length ++ " upcoming reminder(s):\n" ++
        joinSep "\n" (formatLines 1 upcoming)

/-- shallow embedding of agent_tools.list_reminders: fetch the rows of the
pair ordered by the date and time columns, then filter and render -/
def list_reminders (now : PyDateTime) (st : Store) (pair_id : String) : String :=
  listUpcomingMessage now (fetchRows st pair_id)

/-- message of delete_reminder when the pair has no rows at all -/
def noDeleteMsg : String :=
  "You don" ++ sq ++ "t have any reminders to delete."

/-- message of delete_reminder when no title matches the fragment -/
def notFoundMsg (frag : String) : String :=
  "I couldn" ++ sq ++ "t find a reminder matching " ++ sq ++ frag ++ sq ++
    ". Please check the reminder title and try again."

/-- message of delete_reminder when several titles match the fragment -/
def multiMsg (frag : String) (matching : List Reminder) : String :=
  "Found multiple reminders matching " ++ sq ++ frag ++ sq ++ ": " ++
    joinSep ", " (matching.map (fun r => r.title)) ++
    ". Please be more specific."

/-- confirmation of delete_reminder naming the deleted row -/
def deletedMsg (r : Reminder) : String :=
  "I" ++ sq ++ "ve deleted the reminder " ++ sq ++ r.title ++ sq ++
    " scheduled for " ++ r.date ++ " at " ++ r.time ++ "."

/-- shallow embedding of agent_tools.delete_reminder: fetch the rows of
the pair, match the fragment case-insensitively as a substring, and act
only on a unique match; deletion removes the row with the matched id -/
def delete_reminder (st : Store) (pair_id reminder_title : String) :
    String × Store :=
  let rows := st.reminders.filter (fun r => r.pair_id == pair_id)
  if rows = [] then (noDeleteMsg, st)
  else
    let matching :=
      rows.filter (fun r => strContains (lowerStr r.title) (lowerStr reminder_title))
    match matching with
    | [] => (notFoundMsg reminder_title, st)
    | [r] =>
      (deletedMsg r, ⟨st.reminders.filter (fun x => x.id ≠ r.id), st.nextId⟩)
    | _ => (multiMsg reminder_title matching, st)

/-- a row of the emergency_alerts table -/
structure Alert where
  pair_id : String
  alert_type : String
  reason : String
  timestamp : String
  status : String
deriving DecidableEq, Repr

/-- the emergency_alerts table of the data store -/
structure AlertStore where
  alerts : List Alert
deriving DecidableEq, Repr

/-- reassuring confirmation of send_emergency_alert on the normal path -/
def alertSuccessMsg : String :=
  "I" ++ sq ++ "ve notified your caregiver about this situation. Help is on the way. Please stay calm."

/-- reassuring message of the outer exception handler of send_emergency_alert -/
def alertFallbackMsg : String :=
  "I" ++ sq ++ "m here with you. Let me help you feel safe."

/-- shallow embedding of agent_tools.send_emergency_alert.  The fallible
operations are passed in: getClient models get_supabase_client and ins
models the insert call, each an Except whose error case is a Python
exception.  The inner try/except swallows an insert failure and
continues; the outer try/except converts any other failure to the
fallback message.  The function is total: no exception reaches the
caller. -/
def send_emergency_alert (getClient : Except String Unit)
    (ins : Alert → Except String AlertStore) (st : AlertStore)
    (pair_id reason tstamp : String) : String × AlertStore :=
  let body : Except String (String × AlertStore) := do
    let _ ← getClient
    let a : Alert := ⟨pair_id, "emergency", reason, tstamp, "pending"⟩
    let st2 := match ins a with
      | .ok s => s
      | .error _ => st
    pure (alertSuccessMsg, st2)
  match body with
  | .ok r => r
  | .error _ => (alertFallbackMsg, st)

/-- an entry of the per-patient conversation memory: a role and a content -/
structure HistEntry where
  role : String
  content : String
deriving DecidableEq, Repr

/-- append to one patient list and keep only the last 10 entries, exactly
as agent_conversations[patient_id] = agent_conversations[patient_id][-10:] -/
def appendCapped (h : List HistEntry) (e : HistEntry) : List HistEntry :=
  let h2 := h ++ [e]
  if h2.length > 10 then h2.drop (h2.length - 10) else h2

/-- shallow embedding of langgraph_agent.add_to_agent_history: the global
dict is a total map from patient id to entry list, absent keys reading as
the empty list -/
def add_to_agent_history (m : String → List HistEntry)
    (patient_id role content : String) : String → List HistEntry :=
  fun p => if p = patient_id then appendCapped (m p) ⟨role, content⟩ else m p

/-- the history of one patient after a sequence of appends for that
patient, starting from the empty conversation map -/
def histRun (patient_id : String) (es : List HistEntry) : List HistEntry :=
  (es.foldl (fun m e => add_to_agent_history m patient_id e.role e.content)
    (fun _ => [])) patient_id

/-- a tool-invocation request an assistant message carries -/
structure ToolCall where
  id : String
  name : String
  args : List (String × String)
deriving DecidableEq, Repr

/-- a message of the agent state: system, human, assistant with pending
tool-invocation requests, or a tool result tagged with its request id -/
inductive Msg where
  | system : String → Msg
  | human : String → Msg
  | ai : String → List ToolCall → Msg
  | tool : String → String → Msg
deriving DecidableEq, Repr

/-- tool-invocation requests of a message; non-assistant messages carry none -/
def msgToolCalls : Msg → List ToolCall
  | Msg.ai _ tcs => tcs
  | _ => []

/-- fixed message call_agent substitutes when the provider call raises -/
def agentErrorText : String :=
  "I" ++ sq ++ "m having trouble right now. Let me try to help you anyway."

/-- shallow embedding of langgraph_agent.call_agent for one turn: the
provider response is either an assistant message content with its
tool-invocation requests, or an exception; an exception is replaced by
the fixed reassuring assistant message with no tool calls -/
def call_agent (resp : Except Unit (String × List ToolCall)) : Msg :=
  match resp with
  | .ok r => Msg.ai r.1 r.2
  | .error _ => Msg.ai agentErrorText []

/-- shallow embedding of langgraph_agent.should_continue: continue to the
tools node exactly when the last message carries tool-invocation requests -/
def should_continue (msgs : List Msg) : Bool :=
  match msgs.getLast? with
  | some m => !(msgToolCalls m).isEmpty
  | none => false

/-- the ToolNode: execute each requested tool in order against the tool
state and wrap each text result as a tool message tagged with its id -/
def runTools {σ : Type} (exec : ToolCall → σ → String × σ) :
    List ToolCall → σ → List Msg × σ
  | [], st => ([], st)
  | tc :: tcs, st =>
    let r := exec tc st
    let rest := runTools exec tcs r.2
    (Msg.tool tc.id r.1 :: rest.1, rest.2)

/-- the compiled agent graph, run for at most fuel agent turns.  The
provider is a stub indexed by the turn number; exec executes one tool
invocation against the tool state.  The boolean is true when the loop
reached its END edge (should_continue answered false) and false when the
fuel ran out first; the Python loop has no fuel and simply keeps cycling,
so a run that never reaches END never returns there. -/
def runGraph {σ : Type} (provider : Nat → Except Unit (String × List ToolCall))
    (exec : ToolCall → σ → String × σ) :
    Nat → Nat → List Msg → σ → List Msg × σ × Bool
  | 0, _, msgs, st => (msgs, st, false)
  | fuel + 1, turn, msgs, st =>
    let m := call_agent (provider turn)
    let msgs2 := msgs ++ [m]
    if should_continue msgs2 then
      let pr := runTools exec (msgToolCalls m) st
      runGraph provider exec fuel (turn + 1) (msgs2 ++ pr.1) pr.2
    else
      (msgs2, st, true)

/-- the loop reaches its END edge after finitely many turns -/
def loopTerminates {σ : Type}
    (provider : Nat → Except Unit (String × List ToolCall))
    (exec : ToolCall → σ → String × σ) (msgs : List Msg) (st : σ) : Prop :=
  ∃ fuel, (runGraph provider exec fuel 0 msgs st).2.2 = true

/-- initial messages run_agent builds from the conversation history:
user entries become human messages, assistant entries become assistant
messages without tool calls, and any other role is skipped -/
def buildHistory : List (String × String) → List Msg
  | [] => []
  | rc :: rest =>
    if rc.1 = "user" then Msg.human rc.2 :: buildHistory rest
    else if rc.1 = "assistant" then Msg.ai rc.2 [] :: buildHistory rest
    else buildHistory rest

/-- content of the last assistant message with non-empty content, the
reversed-scan extraction at the end of run_agent -/
def lastAiContent (msgs : List Msg) : Option String :=
  msgs.foldl
    (fun acc m =>
      match m with
      | Msg.ai c _ => if c = "" then acc else some c
      | _ => acc)
    none

/-- fallback of run_agent when no assistant message has non-empty content -/
def fallbackText : String :=
  "I" ++ sq ++ "m here to help. What would you like to know?"

/-- fixed reassuring reply of the outer exception handler of run_agent -/
def crashText : String :=
  "I" ++ sq ++ "m having some trouble right now, but I" ++ sq ++ "m here with you. How can I help?"

/-- shallow embedding of langgraph_agent.run_agent.  setup models graph
construction (create_agent_llm raises when the provider credential is
missing; the outer handler catches it).  The Python function returns only
the reply text; the final message list and tool state are returned too so
the side effects of a run are observable. -/
def run_agent {σ : Type} (setup : Except Unit Unit)
    (provider : Nat → Except Unit (String × List ToolCall))
    (exec : ToolCall → σ → String × σ) (fuel : Nat)
    (history : List (String × String)) (message : String) (st : σ) :
    String × List Msg × σ :=
  match setup with
  | .error _ => (crashText, [], st)
  | .ok _ =>
    let msgs0 := buildHistory history ++ [Msg.human message]
    let res := runGraph provider exec fuel 0 msgs0 st
    match lastAiContent res.1 with
    | some c => (c, res.1, res.2.1)
    | none => (fallbackText, res.1, res.2.1)

/-- shallow embedding of local_whisper_service.transcribe_audio_from_bytes
restricted to its text handling: the engine output is none when loading or
transcription raised, otherwise the raw text; the result is stripped and
an empty strip is signalled as absence -/
def transcribe_audio_from_bytes (engineText : Option String) : Option String :=
  match engineText with
  | none => none
  | some raw =>
    let text := strTrim raw
    if text = "" then none else some text

/-- shallow embedding of stt_service.transcribe_audio restricted to its
text handling: when no online credential is present it delegates to the
local path; on the online path the engine text is returned unchanged,
with no strip and no emptiness check -/
def transcribe_audio (useLocal : Bool) (engineText : Option String) :
    Option String :=
  if useLocal then transcribe_audio_from_bytes engineText
  else
    match engineText with
    | none => none
    | some t => some t

/-- Claim C3: for every pair_id and title, a date/time pair that does not
parse under the fixed formats makes create_reminder return an
error-prefixed string and leave the data store untouched, while a pair
that does parse makes it insert exactly one record and return the
confirmation echoing title, date and time. -/
theorem create_reminder_spec (st : Store) (pair_id title date time : String) :
    (parseDateTime date time = none →
      create_reminder st pair_id title date time = (createReminderErrMsg, st) ∧
      strStartsWith createReminderErrMsg "Error:" = true) ∧
    (∀ dt, parseDateTime date time = some dt →
      create_reminder st pair_id title date time =
        (createSuccessMsg title date time,
         ⟨st.reminders ++ [⟨st.nextId, pair_id, title, date, time⟩],
          st.nextId + 1⟩)) := by
  constructor
  · intro h
    constructor
    · simp [create_reminder, h]
    · rfl
  · intro dt h
    simp [create_reminder, h]

/-- Witness for C3: a malformed time leaves the empty store unchanged with
the error message, and a valid date/time inserts the one expected row and
returns the confirmation. -/
theorem create_reminder_spec_witness :
    create_reminder ⟨[], 0⟩ "p1" "Take medicine" "25 Dec 2024" "xx" =
      (createReminderErrMsg, ⟨[], 0⟩) ∧
    create_reminder ⟨[], 0⟩ "p1" "Take medicine" "25 Dec 2024" "08:00 PM" =
      (createSuccessMsg "Take medicine" "25 Dec 2024" "08:00 PM",
       ⟨[⟨0, "p1", "Take medicine", "25 Dec 2024", "08:00 PM"⟩], 1⟩) := by
  constructor
  · exact ((create_reminder_spec ⟨[], 0⟩ "p1" "Take medicine" "25 Dec 2024"
      "xx").1 (by rfl)).1
  · exact (create_reminder_spec ⟨[], 0⟩ "p1" "Take medicine" "25 Dec 2024"
      "08:00 PM").2 ⟨2024, 12, 25, 20, 0⟩ (by rfl)

/-- Claim C4 counterexample: with an empty store the fragment matches zero
reminders and storage is unchanged, but the returned message is the fixed
no-reminders-to-delete text, which does not name the fragment; the claim
says a zero-match message names the fragment. -/
theorem delete_reminder_counterexample :
    delete_reminder ⟨[], 0⟩ "p1" "pills" = (noDeleteMsg, ⟨[], 0⟩) ∧
    strContains noDeleteMsg "pills" = false := by
  exact ⟨rfl, rfl⟩

/-- Claim C4 (amended): delete_reminder on a unique case-insensitive
substring match deletes that row by id and confirms with its date and
time; on zero matches with a non-empty row set it returns the not-found
message naming the fragment and leaves storage unchanged; on an empty row
set it returns the fixed no-reminders-to-delete message and leaves storage
unchanged; on two or more matches it leaves storage unchanged and returns
the disambiguation message listing every matching title. -/
theorem delete_reminder_amended (st : Store) (pair_id frag : String) :
    (st.reminders.filter (fun r => r.pair_id == pair_id) = [] →
      delete_reminder st pair_id frag = (noDeleteMsg, st)) ∧
    (st.reminders.filter (fun r => r.pair_id == pair_id) ≠ [] →
      (st.reminders.filter (fun r => r.pair_id == pair_id)).filter
          (fun r => strContains (lowerStr r.title) (lowerStr frag)) = [] →
      delete_reminder st pair_id frag = (notFoundMsg frag, st)) ∧
    (∀ r, (st.reminders.filter (fun r => r.pair_id == pair_id)).filter
          (fun r => strContains (lowerStr r.title) (lowerStr frag)) = [r] →
      delete_reminder st pair_id frag =
        (deletedMsg r, ⟨st.reminders.filter (fun x => x.id ≠ r.id), st.nextId⟩)) ∧
    (∀ r1 r2 rest,
      (st.reminders.filter (fun r => r.pair_id == pair_id)).filter
          (fun r => strContains (lowerStr r.title) (lowerStr frag)) = r1 :: r2 :: rest →
      delete_reminder st pair_id frag =
        (multiMsg frag (r1 :: r2 :: rest), st)) := by
  refine ⟨?_, ?_, ?_, ?_⟩
  · intro h
    simp [delete_reminder, h]
  · intro hr hm
    simp [delete_reminder, hr, hm]
  · intro r hm
    have hr : st.reminders.filter (fun r => r.pair_id == pair_id) ≠ [] := by
      intro h0
      rw [h0] at hm
      simp at hm
    simp [delete_reminder, hr, hm]
  · intro r1 r2 rest hm
    have hr : st.reminders.filter (fun r => r.pair_id == pair_id) ≠ [] := by
      intro h0
      rw [h0] at hm
      simp at hm
    simp [delete_reminder, hr, hm]

/-- Witness for C4 (amended): a unique case-insensitive match deletes the
row and returns the confirmation naming its date and time. -/
theorem delete_reminder_amended_witness :
    delete_reminder ⟨[⟨1, "p1", "Take medicine", "25 Dec 2024", "08:00 PM"⟩], 2⟩
        "p1" "MEDICINE" =
      (deletedMsg ⟨1, "p1", "Take medicine", "25 Dec 2024", "08:00 PM"⟩,
       ⟨[], 2⟩) := by
  have h := (delete_reminder_amended
      ⟨[⟨1, "p1", "Take medicine", "25 Dec 2024", "08:00 PM"⟩], 2⟩
      "p1" "MEDICINE").2.2.1
      ⟨1, "p1", "Take medicine", "25 Dec 2024", "08:00 PM"⟩ (by rfl)
  exact h.trans (by rfl)

/-- Claim C5: for every behavior of the client construction and of the
insert call, including either raising, send_emergency_alert returns a
non-empty reassuring string; the embedding is a total function, so no
exception reaches the caller. -/
theorem send_emergency_alert_reassuring (getClient : Except String Unit)
    (ins : Alert → Except String AlertStore) (st : AlertStore)
    (pair_id reason tstamp : String) :
    0 < (send_emergency_alert getClient ins st pair_id reason tstamp).1.length ∧
    ((send_emergency_alert getClient ins st pair_id reason tstamp).1 = alertSuccessMsg ∨
     (send_emergency_alert getClient ins st pair_id reason tstamp).1 = alertFallbackMsg) := by
  cases getClient with
  | ok u =>
    constructor
    · simp [send_emergency_alert]
      decide
    · left
      simp [send_emergency_alert]
  | error e =>
    constructor
    · simp [send_emergency_alert]
      decide
    · right
      simp [send_emergency_alert]

/-- Claim C9 counterexample: when the online transcription engine yields
an empty text, the online path returns that empty string to its caller
instead of the absence signal; the offline path on the same input signals
absence.  The claim says both paths signal absence and never return an
empty string. -/
theorem transcribe_selector_counterexample :
    transcribe_audio false (some "") = some "" ∧
    transcribe_audio true (some "") = none := by
  exact ⟨rfl, rfl⟩

/-- Claim C9 (amended): on empty or all-whitespace engine output the
offline path signals absence and it never returns an empty string, while
the online path returns the engine text unchanged, empty or not; engine
failure is signalled as absence on both paths. -/
theorem transcribe_selector_amended (raw : String) :
    (strTrim raw = "" → transcribe_audio true (some raw) = none) ∧
    (strTrim raw ≠ "" → transcribe_audio true (some raw) = some (strTrim raw)) ∧
    transcribe_audio true (some raw) ≠ some "" ∧
    transcribe_audio false (some raw) = some raw ∧
    transcribe_audio true none = none ∧
    transcribe_audio false none = none := by
  refine ⟨?_, ?_, ?_, rfl, rfl, rfl⟩
  · intro h
    simp [transcribe_audio, transcribe_audio_from_bytes, h]
  · intro h
    simp [transcribe_audio, transcribe_audio_from_bytes, h]
  · by_cases h : strTrim raw = ""
    · simp [transcribe_audio, transcribe_audio_from_bytes, h]
    · simp [transcribe_audio, transcribe_audio_from_bytes, h]

/-- Witness for C9 (amended): all-whitespace engine output is absence on
the offline path, and padded speech is returned stripped. -/
theorem transcribe_selector_amended_witness :
    transcribe_audio true (some "   ") = none ∧
    transcribe_audio true (some " hi ") = some "hi" := by
  constructor
  · exact (transcribe_selector_amended "   ").1 (by rfl)
  · exact (transcribe_selector_amended " hi ").2.1 (by decide)

/-- Claim C6 failing input: two future reminders of one pair whose
lexicographic string order on the date column is the reverse of their
chronological order.  The code orders by the raw date and time strings,
so the February 2030 reminder is listed before the January 2030 one even
though January is chronologically earlier: the enumeration is not in
ascending chronological order of the parsed date/time values. -/
theorem list_reminders_string_order_bug :
    list_reminders ⟨2020, 1, 1, 0, 0⟩
        ⟨[⟨1, "p1", "A", "01 Feb 2030", "08:00 AM"⟩,
          ⟨2, "p1", "B", "02 Jan 2030", "08:00 AM"⟩], 3⟩ "p1" =
      "You have 2 upcoming reminder(s):\n1. A - 01 Feb 2030 at 08:00 AM\n2. B - 02 Jan 2030 at 08:00 AM" ∧
    parseDateTime "01 Feb 2030" "08:00 AM" = some ⟨2030, 2, 1, 8, 0⟩ ∧
    parseDateTime "02 Jan 2030" "08:00 AM" = some ⟨2030, 1, 2, 8, 0⟩ ∧
    PyDateTime.key ⟨2030, 1, 2, 8, 0⟩ < PyDateTime.key ⟨2030, 2, 1, 8, 0⟩ := by
  refine ⟨rfl, rfl, rfl, by decide⟩

/-- Claim C7 counterexample: two inputs whose remaining upcoming set is
empty receive two different messages, one when the pair has no stored
reminders at all and another when every stored reminder has passed; the
claim says a single fixed no-reminders message is returned whenever the
remaining set is empty. -/
theorem list_reminders_two_empty_messages :
    list_reminders ⟨2025, 1, 1, 0, 0⟩ ⟨[], 0⟩ "p1" = noRemindersMsg ∧
    list_reminders ⟨2025, 1, 1, 0, 0⟩
        ⟨[⟨1, "p1", "T", "01 Jan 2020", "08:00 AM"⟩], 2⟩ "p1" = allPassedMsg ∧
    (fetchRows ⟨[⟨1, "p1", "T", "01 Jan 2020", "08:00 AM"⟩], 2⟩ "p1").filter
        (isUpcoming ⟨2025, 1, 1, 0, 0⟩) = [] ∧
    noRemindersMsg ≠ allPassedMsg := by
  refine ⟨rfl, rfl, rfl, by decide⟩

/-- Claim C7 (amended): list_reminders keeps exactly the fetched rows
whose date/time parses to a value at or after now, silently skipping rows
that fail to parse; when the pair has no rows it returns one fixed
message, when rows exist but none remains it returns a different fixed
message, and otherwise it renders each remaining row exactly once as a
1-indexed line of the shape number dot title dash date at time, under a
count header. -/
theorem list_reminders_amended (now : PyDateTime) (st : Store) (pair_id : String) :
    (fetchRows st pair_id = [] → list_reminders now st pair_id = noRemindersMsg) ∧
    (fetchRows st pair_id ≠ [] →
      (fetchRows st pair_id).filter (isUpcoming now) = [] →
      list_reminders now st pair_id = allPassedMsg) ∧
    ((fetchRows st pair_id).filter (isUpcoming now) ≠ [] →
      list_reminders now st pair_id =
        "You have " ++ natToStr ((fetchRows st pair_id).filter (isUpcoming now)).length ++
          " upcoming reminder(s):\n" ++
          joinSep "\n" (formatLines 1 ((fetchRows st pair_id).filter (isUpcoming now)))) ∧
    (∀ r, r ∈ fetchRows st pair_id →
      (r ∈ (fetchRows st pair_id).filter (isUpcoming now) ↔
        ∃ dt, parseDateTime r.date r.time = some dt ∧ now.key ≤ dt.key)) := by
  refine ⟨?_, ?_, ?_, ?_⟩
  · intro h
    simp [list_reminders, listUpcomingMessage, h]
  · intro hr hu
    simp [list_reminders, listUpcomingMessage, hr, hu]
  · intro hu
    have hr : fetchRows st pair_id ≠ [] := by
      intro h0
      rw [h0] at hu
      simp at hu
    simp [list_reminders, listUpcomingMessage, hr, hu]
  · intro r hr
    rw [List.mem_filter]
    constructor
    · rintro ⟨-, hup⟩
      unfold isUpcoming at hup
      cases hdt : parseDateTime r.date r.time with
      | none => rw [hdt] at hup; simp at hup
      | some dt =>
        rw [hdt] at hup
        exact ⟨dt, rfl, of_decide_eq_true hup⟩
    · rintro ⟨dt, hdt, hle⟩
      refine ⟨hr, ?_⟩
      unfold isUpcoming
      rw [hdt]
      exact decide_eq_true hle

/-- Witness for C7 (amended): one upcoming reminder is rendered exactly
once as a 1-indexed line under the count header. -/
theorem list_reminders_amended_witness :
    list_reminders ⟨2020, 1, 1, 0, 0⟩
        ⟨[⟨1, "p1", "T", "05 Jan 2025", "08:00 AM"⟩], 2⟩ "p1" =
      "You have 1 upcoming reminder(s):\n1. T - 05 Jan 2025 at 08:00 AM" := by
  have h := (list_reminders_amended ⟨2020, 1, 1, 0, 0⟩
      ⟨[⟨1, "p1", "T", "05 Jan 2025", "08:00 AM"⟩], 2⟩ "p1").2.2.1 (by decide)
  exact h.trans (by rfl)

/-- the last 10 entries of a list, what the Python slice keeps -/
def lastTen (l : List HistEntry) : List HistEntry :=
  l.drop (l.length - 10)

theorem appendCapped_eq_lastTen (h : List HistEntry) (e : HistEntry) :
    appendCapped h e = lastTen (h ++ [e]) := by
  unfold appendCapped lastTen
  by_cases hlen : (h ++ [e]).length > 10
  · rw [if_pos hlen]
  · rw [if_neg hlen]
    have h0 : (h ++ [e]).length - 10 = 0 := by omega
    rw [h0, List.drop_zero]

theorem lastTen_length_le (l : List HistEntry) : (lastTen l).length ≤ 10 := by
  unfold lastTen
  rw [List.length_drop]
  omega

theorem lastTen_append (a b : List HistEntry) :
    lastTen (lastTen a ++ b) = lastTen (a ++ b) := by
  unfold lastTen
  have hk : a.length - 10 ≤ a.length := Nat.sub_le _ _
  rw [← List.drop_append_of_le_length hk, List.drop_drop, List.length_drop]
  congr 1
  rw [List.length_append]
  omega

theorem foldl_appendCapped (es : List HistEntry) :
    ∀ h : List HistEntry, h.length ≤ 10 →
      es.foldl appendCapped h = lastTen (h ++ es) := by
  induction es with
  | nil =>
    intro h hle
    have h0 : (h ++ []).length - 10 = 0 := by
      rw [List.append_nil]
      omega
    rw [List.foldl_nil, lastTen, h0, List.drop_zero, List.append_nil]
  | cons e es ih =>
    intro h hle
    have hlen2 : (appendCapped h e).length ≤ 10 := by
      rw [appendCapped_eq_lastTen]
      exact lastTen_length_le _
    rw [List.foldl_cons, ih _ hlen2, appendCapped_eq_lastTen, lastTen_append]
    congr 1
    simp

theorem foldl_map_level (p : String) :
    ∀ (es : List HistEntry) (m : String → List HistEntry),
      (es.foldl (fun m e => add_to_agent_history m p e.role e.content) m) p =
        es.foldl appendCapped (m p)
  | [], m => rfl
  | e :: es, m => by
    rw [List.foldl_cons, List.foldl_cons,
      foldl_map_level p es (add_to_agent_history m p e.role e.content)]
    congr 1
    simp [add_to_agent_history]

theorem histRun_eq_lastTen (p : String) (es : List HistEntry) :
    histRun p es = lastTen es := by
  unfold histRun
  rw [foldl_map_level, foldl_appendCapped es [] (by simp), List.nil_append]

theorem mem_of_getLast_some :
    ∀ (l : List HistEntry) (e : HistEntry), l.getLast? = some e → e ∈ l
  | [x], e, h => by
    simp [List.getLast?] at h
    simp [h]
  | x :: y :: t, e, h => by
    rw [List.getLast?_cons_cons] at h
    exact List.mem_cons_of_mem x (mem_of_getLast_some (y :: t) e h)

/-- Claim C8: the per-patient conversation memory never exceeds 10
entries; after any sequence of 11 appends to one patient the surviving
entries are exactly the last 10 in append order, so the first-appended
entry is gone (whenever it was not re-appended later) and the 11th is
present. -/
theorem conversation_memory_cap_fifo (p : String) (es : List HistEntry)
    (h11 : es.length = 11) :
    (∀ fs : List HistEntry, (histRun p fs).length ≤ 10) ∧
    histRun p es = es.drop 1 ∧
    (∀ e, es.head? = some e → e ∉ es.drop 1 → e ∉ histRun p es) ∧
    (∀ e, es.getLast? = some e → e ∈ histRun p es) := by
  have hdrop : histRun p es = es.drop 1 := by
    rw [histRun_eq_lastTen, lastTen, h11]
  refine ⟨?_, hdrop, ?_, ?_⟩
  · intro fs
    rw [histRun_eq_lastTen]
    exact lastTen_length_le _
  · intro e _ habs
    rw [hdrop]
    exact habs
  · intro e hl
    rw [hdrop]
    match es, h11 with
    | x :: y :: t, _ =>
      rw [List.getLast?_cons_cons] at hl
      rw [List.drop_one, List.tail_cons]
      exact mem_of_getLast_some (y :: t) e hl

/-- Witness for C8: eleven concrete appends leave exactly the last ten
entries, in order. -/
theorem conversation_memory_cap_fifo_witness :
    histRun "patient1"
        [⟨"user", "m1"⟩, ⟨"assistant", "m2"⟩, ⟨"user", "m3"⟩,
         ⟨"assistant", "m4"⟩, ⟨"user", "m5"⟩, ⟨"assistant", "m6"⟩,
         ⟨"user", "m7"⟩, ⟨"assistant", "m8"⟩, ⟨"user", "m9"⟩,
         ⟨"assistant", "m10"⟩, ⟨"user", "m11"⟩] =
      [⟨"assistant", "m2"⟩, ⟨"user", "m3"⟩,
       ⟨"assistant", "m4"⟩, ⟨"user", "m5"⟩, ⟨"assistant", "m6"⟩,
       ⟨"user", "m7"⟩, ⟨"assistant", "m8"⟩, ⟨"user", "m9"⟩,
       ⟨"assistant", "m10"⟩, ⟨"user", "m11"⟩] := by
  have h := (conversation_memory_cap_fifo "patient1"
      [⟨"user", "m1"⟩, ⟨"assistant", "m2"⟩, ⟨"user", "m3"⟩,
       ⟨"assistant", "m4"⟩, ⟨"user", "m5"⟩, ⟨"assistant", "m6"⟩,
       ⟨"user", "m7"⟩, ⟨"assistant", "m8"⟩, ⟨"user", "m9"⟩,
       ⟨"assistant", "m10"⟩, ⟨"user", "m11"⟩] (by rfl)).2.1
  exact h.trans (by rfl)

theorem should_continue_concat (l : List Msg) (m : Msg) :
    should_continue (l ++ [m]) = !(msgToolCalls m).isEmpty := by
  simp [should_continue, List.getLast?_concat]

theorem lastAiContent_concat_ai (l : List Msg) (c : String)
    (tcs : List ToolCall) (hc : c ≠ "") :
    lastAiContent (l ++ [Msg.ai c tcs]) = some c := by
  unfold lastAiContent
  rw [List.foldl_append]
  simp [hc]

theorem lastAiContent_some_ne (l : List Msg) :
    ∀ acc : Option String, (∀ c, acc = some c → c ≠ "") →
      ∀ c, l.foldl
          (fun acc m =>
            match m with
            | Msg.ai c _ => if c = "" then acc else some c
            | _ => acc) acc = some c → c ≠ "" := by
  induction l with
  | nil =>
    intro acc hacc c hc
    exact hacc c hc
  | cons m t ih =>
    intro acc hacc c hc
    rw [List.foldl_cons] at hc
    refine ih _ ?_ c hc
    intro c2 hc2
    cases m with
    | ai cm tcs =>
      dsimp only at hc2
      by_cases hcm : cm = ""
      · rw [if_pos hcm] at hc2
        exact hacc c2 hc2
      · rw [if_neg hcm] at hc2
        cases hc2
        exact hcm
    | system s => exact hacc c2 hc2
    | human s => exact hacc c2 hc2
    | tool i s => exact hacc c2 hc2

theorem lastAiContent_ne_empty (l : List Msg) (c : String)
    (h : lastAiContent l = some c) : c ≠ "" := by
  refine lastAiContent_some_ne l none ?_ c h
  intro c2 hc2
  cases hc2

/-- the graph reaches END whenever some reachable turn carries no
tool-invocation requests after call_agent error substitution -/
theorem runGraph_done_of_stop {σ : Type}
    (provider : Nat → Except Unit (String × List ToolCall))
    (exec : ToolCall → σ → String × σ) :
    ∀ (fuel turn : Nat) (msgs : List Msg) (st : σ),
      (∃ k, turn ≤ k ∧ k < turn + fuel ∧
        msgToolCalls (call_agent (provider k)) = []) →
      (runGraph provider exec fuel turn msgs st).2.2 = true := by
  intro fuel
  induction fuel with
  | zero =>
    intro turn msgs st h
    obtain ⟨k, hk1, hk2, -⟩ := h
    omega
  | succ f ih =>
    intro turn msgs st h
    obtain ⟨k, hk1, hk2, hk3⟩ := h
    by_cases hturn : msgToolCalls (call_agent (provider turn)) = []
    · rw [runGraph, should_continue_concat, hturn]
      rfl
    · have hkt : turn ≠ k := fun he => hturn (he ▸ hk3)
      rw [runGraph, should_continue_concat]
      have hne : (msgToolCalls (call_agent (provider turn))).isEmpty = false := by
        cases hm : msgToolCalls (call_agent (provider turn)) with
        | nil => exact absurd hm hturn
        | cons a t => rfl
      rw [hne]
      exact ih (turn + 1) _ _ ⟨k, by omega, by omega, hk3⟩

/-- after a run of tool turns, a provider exception at the first reachable
erroring turn ends the loop with the substituted reassuring assistant
message appended last -/
theorem runGraph_error_stop {σ : Type}
    (provider : Nat → Except Unit (String × List ToolCall))
    (exec : ToolCall → σ → String × σ) (k : Nat)
    (herr : provider k = Except.error ())
    (hbefore : ∀ i, i < k → msgToolCalls (call_agent (provider i)) ≠ []) :
    ∀ (fuel turn : Nat) (msgs : List Msg) (st : σ),
      turn ≤ k → k < turn + fuel →
      ∃ l st2, runGraph provider exec fuel turn msgs st =
        (l ++ [Msg.ai agentErrorText []], st2, true) := by
  intro fuel
  induction fuel with
  | zero =>
    intro turn msgs st h1 h2
    omega
  | succ f ih =>
    intro turn msgs st h1 h2
    by_cases hturn : turn = k
    · subst hturn
      rw [runGraph, should_continue_concat, herr]
      exact ⟨msgs, st, rfl⟩
    · have hlt : turn < k := by omega
      have hne : (msgToolCalls (call_agent (provider turn))).isEmpty = false := by
        cases hm : msgToolCalls (call_agent (provider turn)) with
        | nil => exact absurd hm (hbefore turn hlt)
        | cons a t => rfl
      rw [runGraph, should_continue_concat, hne]
      exact ih (turn + 1) _ _ (by omega) (by omega)

/-- Claim C2: when the provider call raises at the first turn the loop
actually reaches (every earlier turn requested tools), the raw error is
not propagated: the loop appends the fixed reassuring assistant message,
which carries no tool-invocation requests, reaches END, and run_agent
returns exactly that fixed text. -/
theorem provider_error_reassuring {σ : Type}
    (provider : Nat → Except Unit (String × List ToolCall))
    (exec : ToolCall → σ → String × σ)
    (history : List (String × String)) (message : String) (st : σ)
    (k fuel : Nat)
    (hbefore : ∀ i, i < k → msgToolCalls (call_agent (provider i)) ≠ [])
    (herr : provider k = Except.error ())
    (hfuel : k < fuel) :
    (run_agent (Except.ok ()) provider exec fuel history message st).1 =
      agentErrorText ∧
    (runGraph provider exec fuel 0
        (buildHistory history ++ [Msg.human message]) st).2.2 = true ∧
    ∃ l, (runGraph provider exec fuel 0
        (buildHistory history ++ [Msg.human message]) st).1 =
      l ++ [Msg.ai agentErrorText []] := by
  obtain ⟨l, st2, hrun⟩ := runGraph_error_stop provider exec k herr hbefore
    fuel 0 (buildHistory history ++ [Msg.human message]) st (by omega) (by omega)
  have herrne : agentErrorText ≠ "" := by decide
  refine ⟨?_, ?_, ⟨l, ?_⟩⟩
  · rw [run_agent, hrun]
    simp only []
    rw [lastAiContent_concat_ai l agentErrorText [] herrne]
  · rw [hrun]
  · rw [hrun]

/-- Witness for C2: a provider that raises immediately makes run_agent
return the fixed reassuring message. -/
theorem provider_error_reassuring_witness :
    (run_agent (Except.ok ()) (fun _ => Except.error ())
      (fun (_ : ToolCall) (st : Unit) => ("ok", st)) 1 [] "hello" ()).1 =
      agentErrorText := by
  exact (provider_error_reassuring (fun _ => Except.error ())
    (fun (_ : ToolCall) (st : Unit) => ("ok", st)) [] "hello" () 0 1
    (fun i hi => absurd hi (by omega)) rfl (by omega)).1

/-- Claim C1: with a stub provider whose first turn requests exactly one
tool invocation and whose second turn is a plain non-empty reply, the
loop executes the requested tool exactly once (the final tool state is
one application of exec and exactly one tool-result message appears),
appends the tool text result to the message sequence before the second
model turn, and run_agent returns the second reply as the final answer. -/
theorem agent_round_trip {σ : Type}
    (provider : Nat → Except Unit (String × List ToolCall))
    (exec : ToolCall → σ → String × σ)
    (history : List (String × String)) (message : String) (st : σ)
    (c0 c1 : String) (tc : ToolCall) (fuel : Nat)
    (h0 : provider 0 = Except.ok (c0, [tc]))
    (h1 : provider 1 = Except.ok (c1, []))
    (hc1 : c1 ≠ "") (hf : 2 ≤ fuel) :
    run_agent (Except.ok ()) provider exec fuel history message st =
      (c1,
       buildHistory history ++
         [Msg.human message, Msg.ai c0 [tc],
          Msg.tool tc.id (exec tc st).1, Msg.ai c1 []],
       (exec tc st).2) := by
  obtain ⟨f, rfl⟩ : ∃ f, fuel = f + 1 + 1 := ⟨fuel - 2, by omega⟩
  have hgraph : runGraph provider exec (f + 1 + 1) 0
      (buildHistory history ++ [Msg.human message]) st =
      ((buildHistory history ++ [Msg.human message] ++ [Msg.ai c0 [tc]] ++
          [Msg.tool tc.id (exec tc st).1]) ++ [Msg.ai c1 []],
       (exec tc st).2, true) := by
    rw [runGraph, h0, should_continue_concat]
    simp only [call_agent, msgToolCalls, List.isEmpty_cons, Bool.not_false,
      if_true, runTools]
    rw [runGraph, h1, should_continue_concat]
    simp only [call_agent, msgToolCalls, List.isEmpty_nil, Bool.not_true]
    rw [if_neg (by decide)]
  rw [run_agent, hgraph]
  rw [lastAiContent_concat_ai _ c1 [] hc1]
  simp [List.append_assoc]

/-- Witness for C1: a two-turn stub provider with one tool request makes
run_agent execute the tool once, weave its result into the sequence, and
return the second reply. -/
theorem agent_round_trip_witness :
    run_agent (Except.ok ())
      (fun t => if t = 0 then Except.ok ("", [⟨"c1", "create_reminder", []⟩])
        else Except.ok ("Done.", []))
      (fun (_ : ToolCall) (st : Unit) => ("tool result", st)) 2 [] "remind me" () =
      ("Done.",
       [Msg.human "remind me", Msg.ai "" [⟨"c1", "create_reminder", []⟩],
        Msg.tool "c1" "tool result", Msg.ai "Done." []], ()) := by
  have h := agent_round_trip
    (fun t => if t = 0 then Except.ok ("", [⟨"c1", "create_reminder", []⟩])
      else Except.ok ("Done.", []))
    (fun (_ : ToolCall) (st : Unit) => ("tool result", st))
    [] "remind me" () "" "Done." ⟨"c1", "create_reminder", []⟩ 2
    rfl rfl (by decide) (by omega)
  exact h.trans (by rfl)

/-- stub provider that requests a tool invocation on every turn -/
def c10Provider : Nat → Except Unit (String × List ToolCall) :=
  fun _ => Except.ok ("", [⟨"call1", "list_reminders", []⟩])

/-- trivial tool executor for the nontermination scenario -/
def c10Exec : ToolCall → Unit → String × Unit :=
  fun _ st => ("ok", st)

theorem c10_never_done :
    ∀ (fuel turn : Nat) (msgs : List Msg) (st : Unit),
      (runGraph c10Provider c10Exec fuel turn msgs st).2.2 = false := by
  intro fuel
  induction fuel with
  | zero =>
    intro turn msgs st
    rfl
  | succ f ih =>
    intro turn msgs st
    rw [runGraph, should_continue_concat]
    simp only [c10Provider, call_agent, msgToolCalls, List.isEmpty_cons,
      Bool.not_false, if_true]
    exact ih _ _ _

/-- Claim C10 counterexample: a provider that requests a tool invocation
on every turn keeps the loop cycling between the agent node and the tools
node forever; no number of rounds reaches the END edge, so run_agent,
whose loop has no iteration bound, never returns at all on this input —
refuting that run_agent always returns a non-empty string for every
provider behavior. -/
theorem run_agent_nontermination :
    ¬ loopTerminates c10Provider c10Exec [Msg.human "What are my reminders?"] () := by
  rintro ⟨fuel, hdone⟩
  rw [c10_never_done] at hdone
  cases hdone

/-- Claim C10 (amended): whenever some turn of the provider yields, after
error substitution, a message with no tool-invocation requests, the loop
reaches END, and run_agent never raises and returns a non-empty string;
a setup failure is caught and answered with the fixed reassuring text,
and when the final state has no assistant message with non-empty content
the fixed fallback text is returned. -/
theorem run_agent_amended {σ : Type} (setup : Except Unit Unit)
    (provider : Nat → Except Unit (String × List ToolCall))
    (exec : ToolCall → σ → String × σ)
    (history : List (String × String)) (message : String) (st : σ)
    (n fuel : Nat)
    (hstop : msgToolCalls (call_agent (provider n)) = [])
    (hfuel : n < fuel) :
    (run_agent setup provider exec fuel history message st).1 ≠ "" ∧
    (setup = Except.error () →
      (run_agent setup provider exec fuel history message st).1 = crashText) ∧
    (setup = Except.ok () →
      (runGraph provider exec fuel 0
        (buildHistory history ++ [Msg.human message]) st).2.2 = true) ∧
    (setup = Except.ok () →
      lastAiContent (runGraph provider exec fuel 0
        (buildHistory history ++ [Msg.human message]) st).1 = none →
      (run_agent setup provider exec fuel history message st).1 = fallbackText) := by
  cases setup with
  | error u =>
    cases u
    refine ⟨?_, fun _ => rfl, ?_, ?_⟩
    · rw [run_agent]
      show crashText ≠ ""
      decide
    · intro h
      cases h
    · intro h
      cases h
  | ok u =>
    cases u
    have hdone := runGraph_done_of_stop provider exec fuel 0
      (buildHistory history ++ [Msg.human message]) st
      ⟨n, by omega, by omega, hstop⟩
    refine ⟨?_, ?_, fun _ => hdone, ?_⟩
    · cases hlast : lastAiContent (runGraph provider exec fuel 0
          (buildHistory history ++ [Msg.human message]) st).1 with
      | none =>
        rw [run_agent, hlast]
        show fallbackText ≠ ""
        decide
      | some c =>
        have hcne := lastAiContent_ne_empty _ c hlast
        rw [run_agent, hlast]
        exact hcne
    · intro h
      cases h
    · intro _ hnone
      rw [run_agent, hnone]

/-- Witness for C10 (amended): a provider answering plainly on the first
turn gives a non-empty reply through run_agent. -/
theorem run_agent_amended_witness :
    (run_agent (Except.ok ()) (fun _ => Except.ok ("Hello there", []))
      (fun (_ : ToolCall) (st : Unit) => ("ok", st)) 1 [] "hi" ()).1 ≠ "" := by
  exact (run_agent_amended (Except.ok ()) (fun _ => Except.ok ("Hello there", []))
    (fun (_ : ToolCall) (st : Unit) => ("ok", st)) [] "hi" () 0 1
    rfl (by omega)).1

end CogniAnchor
